import Mathlib

/-!
Shallow embedding of the bot-in-a-box provisioning script
(src/biab/start.py) and verification of its specification claims.

External effects are made explicit: command invocations, prompts and
HTTP responses become parameters (response values, response streams,
input streams), and each step returns the events it performs together
with its outcome. Unbounded loops are modelled with an explicit fuel
parameter; exhausting the fuel marks a run that has not yet terminated.
-/

set_option maxHeartbeats 1000000
set_option linter.unusedVariables false

/-- A JSON value, as produced by parsing an HTTP response body. -/
inductive Json where
  | null : Json
  | bool (b : Bool) : Json
  | num (n : Int) : Json
  | str (s : String) : Json
  | arr (elems : List Json) : Json
  | obj (fields : List (String × Json)) : Json

/-- Dictionary lookup: the value under key `k` when the JSON value is an
object that has that key (Python `d[k]` / `k in d` on a dict). -/
def Json.getKey? : Json → String → Option Json
  | Json.obj fields, k => (fields.find? (fun kv => kv.1 == k)).map (fun kv => kv.2)
  | _, _ => none

/-- Python truthiness of a JSON value (`if result[..]:`). -/
def Json.truthy : Json → Bool
  | Json.null => false
  | Json.bool b => b
  | Json.num n => n != 0
  | Json.str s => !(s == "")
  | Json.arr elems => !elems.isEmpty
  | Json.obj fields => !fields.isEmpty

/-- Whether the JSON object has the given key (Python `k in result`). -/
def Json.hasKeyB (j : Json) (k : String) : Bool := (j.getKey? k).isSome

/-- Module-level constant FIREBASE_CREDENTIALS_FILE_NAME from start.py. -/
def FIREBASE_CREDENTIALS_FILE_NAME : String := "generated_firebase_credentials.json"

/-- Module-level constant SERVICE_ACCOUNT_NAME from start.py. -/
def SERVICE_ACCOUNT_NAME : String := "firebase-bm-df-bot"

/-- A file write performed by the script: target path and JSON content. -/
structure WrittenFile where
  path : String
  content : Json

/-- Embedding of `create_config(project_id, partner_key)`: builds the flat
config mapping in insertion order and writes it to ../resources/config.json
(the write is modelled as the returned `WrittenFile`; `json.dump` over an
existing file truncates, so the write overwrites unconditionally). -/
def create_config (project_id partner_key : String) : WrittenFile :=
  { path := "../resources/config.json"
    content := Json.obj
      [ ("use_firebase_for_credentials", Json.bool true)
      , ("firebase_service_account", Json.str FIREBASE_CREDENTIALS_FILE_NAME)
      , ("verification_token", Json.str partner_key)
      , ("firebase_database_url", Json.str ("https://" ++ project_id ++ ".firebaseio.com"))
      ] }

/-- C1: for every non-empty project id and non-empty partner key, the
configuration written by `create_config` maps `verification_token` to the
partner key verbatim and `firebase_database_url` to
`https://{project_id}.firebaseio.com` with the project id inserted
verbatim. -/
theorem create_config_fields (project_id partner_key : String)
    (hp : project_id ≠ "") (hk : partner_key ≠ "") :
    (create_config project_id partner_key).content.getKey? "verification_token"
        = some (Json.str partner_key)
    ∧ (create_config project_id partner_key).content.getKey? "firebase_database_url"
        = some (Json.str ("https://" ++ project_id ++ ".firebaseio.com")) := by
  constructor <;> rfl

/-- Witness for C1 at a concrete project id and partner key. -/
theorem create_config_fields_witness :
    (create_config "my-proj" "my-partner-key").content.getKey? "verification_token"
        = some (Json.str "my-partner-key")
    ∧ (create_config "my-proj" "my-partner-key").content.getKey? "firebase_database_url"
        = some (Json.str "https://my-proj.firebaseio.com") := by
  have h := create_config_fields "my-proj" "my-partner-key" (by decide) (by decide)
  simpa using h

/-! ## Database initialization (wait_for_operation, initialize_firebase) -/

/-- Whether a polled operation result makes the loop raise: Python
`if 'error' in result`. -/
def pollHasError (r : Json) : Bool := r.hasKeyB "error"

/-- Whether a polled operation result makes the loop return: Python
`if 'done' in result and result['done']`. -/
def pollDoneTrue (r : Json) : Bool :=
  match r.getKey? "done" with
  | some d => d.truthy
  | none => false

/-- The error payload of a polled result (`result['error']`; only used when
the key is present). -/
def pollErrorOf (r : Json) : Json := (r.getKey? "error").getD Json.null

/-- Embedding of the polling loop in `wait_for_operation`. `results k` is
the JSON body returned by the k-th `request.execute()`. The loop checks
`error` first (raising it), then `done` (returning), else sleeps one second
and retries. `fuel` bounds how many polls we unfold; `none` means the loop
has not terminated within `fuel` polls. On termination the result carries
(number of polls performed, number of one-second sleeps performed, outcome):
`Except.error e` for a raised error, `Except.ok ()` for a normal return. -/
def wait_for_operation (results : Nat → Json) : Nat → Nat → Option (Nat × Nat × Except Json Unit)
  | _, 0 => none
  | k, fuel + 1 =>
    if pollHasError (results k) then some (1, 0, Except.error (pollErrorOf (results k)))
    else if pollDoneTrue (results k) then some (1, 0, Except.ok ())
    else
      match wait_for_operation results (k + 1) fuel with
      | none => none
      | some (p, s, out) => some (p + 1, s + 1, out)

/-- Python `request['error']['code'] == 409` on the value under `code`:
`==` against the int 409 is False for every non-number value. -/
def codeIs409 : Json → Bool
  | Json.num n => n == 409
  | _ => false

/-- Outcome of `initialize_firebase`. -/
inductive FbOutcome where
  | alreadyExists
  | completed
  | silentReturn
  | raised (e : Json)
  | raisedKeyError
  | exhausted

/-- Observable result of one run of `initialize_firebase`: polls and sleeps
performed by the operation wait, whether the sentinel record
`setup/ = \x7bcompleted: true\x7d` was written, and the outcome. -/
structure FbRun where
  polls : Nat
  sleeps : Nat
  sentinelWritten : Bool
  outcome : FbOutcome

/-- Embedding of `initialize_firebase(project_id)`. `addResp` is the JSON
body of the POST to the addFirebase endpoint; `results` is the stream of
operation-poll bodies. Branch structure mirrors the source: if the body has
an `error` key whose `code` equals 409 it returns after a print; elif the
body has a `name` key it waits for the operation and then writes the
sentinel record; otherwise it returns silently. A body with an `error` key
but no `code` key raises a KeyError. -/
def initialize_firebase (addResp : Json) (results : Nat → Json) (fuel : Nat) : FbRun :=
  let proceed : FbRun :=
    match addResp.getKey? "name" with
    | some _ =>
      match wait_for_operation results 0 fuel with
      | none => ⟨fuel, fuel, false, FbOutcome.exhausted⟩
      | some (p, s, Except.error e) => ⟨p, s, false, FbOutcome.raised e⟩
      | some (p, s, Except.ok _) => ⟨p, s, true, FbOutcome.completed⟩
    | none => ⟨0, 0, false, FbOutcome.silentReturn⟩
  match addResp.getKey? "error" with
  | some e =>
    match e.getKey? "code" with
    | some c => if codeIs409 c then ⟨0, 0, false, FbOutcome.alreadyExists⟩ else proceed
    | none => ⟨0, 0, false, FbOutcome.raisedKeyError⟩
  | none => proceed

/-- The polling loop never terminates when no result ever reports an error
or a truthy done flag. -/
theorem wait_never_terminates (results : Nat → Json)
    (h : ∀ k, pollHasError (results k) = false ∧ pollDoneTrue (results k) = false) :
    ∀ fuel k, wait_for_operation results k fuel = none := by
  intro fuel
  induction fuel with
  | zero => intro k; rfl
  | succ n ih =>
    intro k
    simp [wait_for_operation, (h k).1, (h k).2, ih (k + 1)]

/-- When the first terminal result is a truthy done flag at poll index
`k + m` (no error up to and including it, no truthy done before it), the
loop performs exactly `m + 1` polls and `m` sleeps and returns normally. -/
theorem wait_done_spec (results : Nat → Json) :
    ∀ m k fuel,
      (∀ j, j ≤ m → pollHasError (results (k + j)) = false) →
      (∀ j, j < m → pollDoneTrue (results (k + j)) = false) →
      pollDoneTrue (results (k + m)) = true →
      wait_for_operation results k (fuel + (m + 1)) = some (m + 1, m, Except.ok ()) := by
  intro m
  induction m with
  | zero =>
    intro k fuel herr hdone hlast
    have h0 : pollHasError (results k) = false := by simpa using herr 0 (by omega)
    have h1 : pollDoneTrue (results k) = true := by simpa using hlast
    simp [wait_for_operation, h0, h1]
  | succ n ih =>
    intro k fuel herr hdone hlast
    have h0 : pollHasError (results k) = false := by simpa using herr 0 (by omega)
    have h1 : pollDoneTrue (results k) = false := by simpa using hdone 0 (by omega)
    have hrec := ih (k + 1) fuel
      (fun j hj => by
        have := herr (j + 1) (by omega)
        simpa [Nat.add_assoc, Nat.add_comm 1 j] using this)
      (fun j hj => by
        have := hdone (j + 1) (by omega)
        simpa [Nat.add_assoc, Nat.add_comm 1 j] using this)
      (by
        have := hlast
        simpa [Nat.add_assoc, Nat.add_comm 1 n] using this)
    have hshape : fuel + (n + 1 + 1) = (fuel + (n + 1)) + 1 := by omega
    rw [hshape]
    generalize hM : fuel + (n + 1) = M at hrec ⊢
    simp [wait_for_operation, h0, h1, hrec]

/-- When the first terminal result is an error at poll index `k + m`, the
loop performs exactly `m + 1` polls and `m` sleeps and raises that error. -/
theorem wait_error_spec (results : Nat → Json) :
    ∀ m k fuel,
      (∀ j, j < m → pollHasError (results (k + j)) = false
                    ∧ pollDoneTrue (results (k + j)) = false) →
      pollHasError (results (k + m)) = true →
      wait_for_operation results k (fuel + (m + 1))
        = some (m + 1, m, Except.error (pollErrorOf (results (k + m)))) := by
  intro m
  induction m with
  | zero =>
    intro k fuel hpre hlast
    have h1 : pollHasError (results k) = true := by simpa using hlast
    simp [wait_for_operation, h1]
  | succ n ih =>
    intro k fuel hpre hlast
    have h0 := hpre 0 (by omega)
    have h0e : pollHasError (results k) = false := by simpa using h0.1
    have h0d : pollDoneTrue (results k) = false := by simpa using h0.2
    have hrec := ih (k + 1) fuel
      (fun j hj => by
        have := hpre (j + 1) (by omega)
        constructor
        · simpa [Nat.add_assoc, Nat.add_comm 1 j] using this.1
        · simpa [Nat.add_assoc, Nat.add_comm 1 j] using this.2)
      (by
        have := hlast
        simpa [Nat.add_assoc, Nat.add_comm 1 n] using this)
    have hshape : fuel + (n + 1 + 1) = (fuel + (n + 1)) + 1 := by omega
    rw [hshape]
    have hout : k + 1 + n = k + (n + 1) := by omega
    rw [hout] at hrec
    generalize hM : fuel + (n + 1) = M at hrec ⊢
    simp [wait_for_operation, h0e, h0d, hrec]

/-- C2: for every add-database response whose JSON body reports the
conflict error code 409 (the body of an HTTP 409 response from the
addFirebase endpoint), `initialize_firebase` performs zero polling calls,
writes no sentinel record, and completes without error, reporting that the
Firebase entity already exists. -/
theorem initialize_firebase_conflict_409 (addResp e : Json) (results : Nat → Json) (fuel : Nat)
    (h1 : addResp.getKey? "error" = some e)
    (h2 : e.getKey? "code" = some (Json.num 409)) :
    initialize_firebase addResp results fuel
      = ⟨0, 0, false, FbOutcome.alreadyExists⟩ := by
  simp [initialize_firebase, h1, h2, codeIs409]

/-- Witness for C2 at a concrete 409 response body. -/
theorem initialize_firebase_conflict_409_witness :
    initialize_firebase (Json.obj [("error", Json.obj [("code", Json.num 409)])])
        (fun _ => Json.null) 7
      = ⟨0, 0, false, FbOutcome.alreadyExists⟩ :=
  initialize_firebase_conflict_409 _ (Json.obj [("code", Json.num 409)]) _ 7 rfl rfl

/-- C3: when the add-database response names an operation and the first
polled result that terminates the loop carries an `error` key (at poll
index m, with no earlier error and no earlier truthy done flag),
`initialize_firebase` aborts by raising that error, and the sentinel
record is never written. -/
theorem initialize_firebase_operation_error
    (addResp nm : Json) (results : Nat → Json) (m fuel : Nat)
    (hne : addResp.getKey? "error" = none)
    (hnm : addResp.getKey? "name" = some nm)
    (hpre : ∀ j, j < m → pollHasError (results j) = false ∧ pollDoneTrue (results j) = false)
    (herr : pollHasError (results m) = true) :
    initialize_firebase addResp results (fuel + (m + 1))
      = ⟨m + 1, m, false, FbOutcome.raised (pollErrorOf (results m))⟩ := by
  have hw := wait_error_spec results m 0 fuel
    (by intro j hj; simpa using hpre j hj) (by simpa using herr)
  simp only [Nat.zero_add] at hw
  simp [initialize_firebase, hne, hnm, hw]

/-- Witness for C3: the very first poll reports an error. -/
theorem initialize_firebase_operation_error_witness :
    initialize_firebase (Json.obj [("name", Json.str "operations/op1")])
        (fun _ => Json.obj [("error", Json.str "boom")]) (0 + (0 + 1))
      = ⟨0 + 1, 0, false, FbOutcome.raised (Json.str "boom")⟩ :=
  initialize_firebase_operation_error (Json.obj [("name", Json.str "operations/op1")])
    (Json.str "operations/op1") (fun _ => Json.obj [("error", Json.str "boom")]) 0 0
    rfl rfl (fun j hj => absurd hj (by omega)) rfl

/-- C4: when the first poll to report a truthy done flag is poll number
m + 1 (no earlier done, no error up to that point), the polling loop of
`wait_for_operation` performs exactly m + 1 polling calls with m one-second
sleeps between consecutive polls and then returns; and when no poll ever
reports done or error, the loop never terminates (it returns pending for
every fuel bound). -/
theorem wait_for_operation_poll_count (results : Nat → Json) :
    (∀ m fuel,
        (∀ j, j ≤ m → pollHasError (results j) = false) →
        (∀ j, j < m → pollDoneTrue (results j) = false) →
        pollDoneTrue (results m) = true →
        wait_for_operation results 0 (fuel + (m + 1)) = some (m + 1, m, Except.ok ()))
    ∧ ((∀ k, pollHasError (results k) = false ∧ pollDoneTrue (results k) = false) →
        ∀ fuel, wait_for_operation results 0 fuel = none) := by
  constructor
  · intro m fuel h1 h2 h3
    have hw := wait_done_spec results m 0 fuel
      (by intro j hj; simpa using h1 j hj)
      (by intro j hj; simpa using h2 j hj)
      (by simpa using h3)
    exact hw
  · intro h fuel
    exact wait_never_terminates results h fuel 0

/-- Witness for C4: done on the third poll gives exactly three polls and
two sleeps; a stream that never reports done or error never terminates. -/
theorem wait_for_operation_poll_count_witness :
    wait_for_operation
        (fun k => if k < 2 then Json.obj [] else Json.obj [("done", Json.bool true)])
        0 (0 + (2 + 1)) = some (2 + 1, 2, Except.ok ())
    ∧ wait_for_operation (fun _ => Json.obj []) 0 5 = none := by
  constructor
  · exact (wait_for_operation_poll_count
        (fun k => if k < 2 then Json.obj [] else Json.obj [("done", Json.bool true)])).1
      2 0 (by decide) (by decide) (by decide)
  · exact (wait_for_operation_poll_count (fun _ => Json.obj [])).2 (fun k => ⟨rfl, rfl⟩) 5

/-- C10: for every add-database response whose body carries an `error` key
with a code other than 409 and no `name` key, `initialize_firebase`
returns silently: zero polling calls, no sentinel record, no raised
error. -/
theorem initialize_firebase_silent_on_error
    (addResp e : Json) (code : Int) (results : Nat → Json) (fuel : Nat)
    (h1 : addResp.getKey? "error" = some e)
    (h2 : e.getKey? "code" = some (Json.num code))
    (h3 : code ≠ 409)
    (h4 : addResp.getKey? "name" = none) :
    initialize_firebase addResp results fuel
      = ⟨0, 0, false, FbOutcome.silentReturn⟩ := by
  have hc : codeIs409 (Json.num code) = false := by
    simp [codeIs409]
    exact h3
  simp [initialize_firebase, h1, h2, hc, h4]

/-- Witness for C10 at a concrete 500-error response body. -/
theorem initialize_firebase_silent_on_error_witness :
    initialize_firebase (Json.obj [("error", Json.obj [("code", Json.num 500)])])
        (fun _ => Json.null) 4
      = ⟨0, 0, false, FbOutcome.silentReturn⟩ :=
  initialize_firebase_silent_on_error (Json.obj [("error", Json.obj [("code", Json.num 500)])])
    (Json.obj [("code", Json.num 500)]) 500 (fun _ => Json.null) 4
    rfl rfl (by omega) rfl

/-! ## Service account provisioning (get_service_key) -/

/-- Events of one run of `get_service_key`: the gcloud invocations
attempted and the failure messages logged by the two except blocks. -/
inductive SkEv where
  | attemptCreateAccount
  | attemptCreateKey
  | logAccountOrKeyFailure
  | attemptAddIamBinding
  | logBindingFailure
deriving DecidableEq

/-- Embedding of `get_service_key(project_id)`. The source has two
try/except blocks: the FIRST covers both the account-creation run and the
key-creation run (`check=True` raises CalledProcessError on failure, so a
failed account creation skips the key creation); the SECOND covers the
add-iam-policy-binding run. Each except block logs and continues, so no
failure propagates. `createOk`, `keyOk`, `bindOk` say whether the
corresponding gcloud invocation succeeds; the result is the list of events
of the run. -/
def get_service_key (createOk keyOk bindOk : Bool) : List SkEv :=
  (if createOk then
    if keyOk then [SkEv.attemptCreateAccount, SkEv.attemptCreateKey]
    else [SkEv.attemptCreateAccount, SkEv.attemptCreateKey, SkEv.logAccountOrKeyFailure]
  else [SkEv.attemptCreateAccount, SkEv.logAccountOrKeyFailure])
  ++ (if bindOk then [SkEv.attemptAddIamBinding]
      else [SkEv.attemptAddIamBinding, SkEv.logBindingFailure])

/-- Counterexample to C8 as stated: when account creation fails, the
key-mint invocation is never attempted (the one try block covers both). -/
theorem get_service_key_counterexample :
    SkEv.attemptCreateKey ∉ get_service_key false true true := by
  decide

/-- C8 (amended): account creation and key minting share one try/except
block, so creation is always attempted but key minting is attempted iff
creation succeeds; the editor-role binding is always attempted regardless;
every failure is caught and logged (a log event appears) rather than
propagated, and the run always continues to completion. -/
theorem get_service_key_best_effort (createOk keyOk bindOk : Bool) :
    SkEv.attemptCreateAccount ∈ get_service_key createOk keyOk bindOk
    ∧ SkEv.attemptAddIamBinding ∈ get_service_key createOk keyOk bindOk
    ∧ (SkEv.attemptCreateKey ∈ get_service_key createOk keyOk bindOk ↔ createOk = true)
    ∧ (createOk = false ∨ keyOk = false →
        SkEv.logAccountOrKeyFailure ∈ get_service_key createOk keyOk bindOk)
    ∧ (bindOk = false → SkEv.logBindingFailure ∈ get_service_key createOk keyOk bindOk) := by
  cases createOk <;> cases keyOk <;> cases bindOk <;> decide

/-- Witness for the amended C8 at a run where account creation and the
binding both fail. -/
theorem get_service_key_best_effort_witness :
    SkEv.attemptCreateAccount ∈ get_service_key false true false
    ∧ SkEv.attemptAddIamBinding ∈ get_service_key false true false
    ∧ (SkEv.attemptCreateKey ∈ get_service_key false true false ↔ false = true)
    ∧ (false = false ∨ true = false →
        SkEv.logAccountOrKeyFailure ∈ get_service_key false true false)
    ∧ (false = false → SkEv.logBindingFailure ∈ get_service_key false true false) :=
  get_service_key_best_effort false true false

/-! ## Region selection (set_region) -/

/-- Events of one run of `set_region`. -/
inductive RgEv where
  | describeApp
  | listRegions
  | promptRegion (resp : String)
  | createApp (region : String)
deriving DecidableEq

/-- Result of one run of `set_region`: normal return with its event list,
an IndexError raised while parsing the region listing
(`x.split()[0]` on a line with no tokens), or a prompt loop that has not
terminated within the available fuel. -/
inductive SROutcome where
  | done (tr : List RgEv)
  | raisedIndexError (tr : List RgEv)
  | stuck (tr : List RgEv)
deriving DecidableEq

/-- Split a character list at every character satisfying `p`, keeping
empty pieces (the semantics of Python `s.split(sep)` for a one-character
separator when `p` tests for that separator). -/
def splitChars (p : Char → Bool) : List Char → List (List Char)
  | [] => [[]]
  | c :: rest =>
    let r := splitChars p rest
    if p c then [] :: r
    else
      match r with
      | piece :: pieces => (c :: piece) :: pieces
      | [] => [[c]]

/-- Python `x.split()[0]`: first whitespace-separated token of a line
(split on whitespace runs, empties removed); `none` models the IndexError
raised when the line has no tokens. -/
def pyFirstWord (s : String) : Option String :=
  (((splitChars Char.isWhitespace s.data).filter (fun t => t ≠ [])).head?).map
    (fun t => String.mk t)

/-- Python `out.split('\n')[1:-1]` mapped through `x.split()[0]`: drop the
header line and the trailing element, then take each line's first token. -/
def parseRegions (out : String) : Option (List String) :=
  ((((splitChars (fun c => c = '\n') out.data).map (fun l => String.mk l)).drop 1).dropLast).mapM
    pyFirstWord

/-- The region prompt loop: `while deploy_region not in regions_list`,
starting from the empty string, reading `inputs k` at each prompt.
Returns the prompt events and the final region, or `none` when the loop
has not terminated within `fuel` prompts. -/
def regionLoop (inputs : Nat → String) (rl : List String) :
    String → Nat → Nat → Option (List RgEv × String)
  | cur, _, 0 => if cur ∈ rl then some ([], cur) else none
  | cur, k, fuel + 1 =>
    if cur ∈ rl then some ([], cur)
    else
      match regionLoop inputs rl (inputs k) (k + 1) fuel with
      | none => none
      | some (evs, r) => some (RgEv.promptRegion (inputs k) :: evs, r)

/-- Embedding of `set_region()`. `describeErr` is the stderr text of
`gcloud app describe` (Python `if err:` tests it for non-emptiness);
`regionsOut` is the stdout of `gcloud app regions list`; `inputs` is the
stream of interactive answers. When describe produces no error text the
function takes no further action; otherwise it lists regions, prompts
until the answer is in the parsed region list, and creates the app with
that region. -/
def set_region (describeErr regionsOut : String) (inputs : Nat → String) (fuel : Nat) :
    SROutcome :=
  if describeErr ≠ "" then
    match parseRegions regionsOut with
    | none => SROutcome.raisedIndexError [RgEv.describeApp, RgEv.listRegions]
    | some rl =>
      match regionLoop inputs rl "" 0 fuel with
      | none => SROutcome.stuck [RgEv.describeApp, RgEv.listRegions]
      | some (evs, r) =>
        SROutcome.done ([RgEv.describeApp, RgEv.listRegions] ++ evs ++ [RgEv.createApp r])
  else SROutcome.done [RgEv.describeApp]

/-- A terminating region prompt loop returns a region from the list, and
every event it produced is a prompt. -/
theorem regionLoop_sound (inputs : Nat → String) (rl : List String) :
    ∀ fuel cur k evs r, regionLoop inputs rl cur k fuel = some (evs, r) →
      r ∈ rl ∧ ∀ e ∈ evs, ∃ q, e = RgEv.promptRegion q := by
  intro fuel
  induction fuel with
  | zero =>
    intro cur k evs r h
    by_cases hc : cur ∈ rl
    · simp [regionLoop, hc] at h
      obtain ⟨rfl, rfl⟩ := h
      exact ⟨hc, by intro e he; simp at he⟩
    · simp [regionLoop, hc] at h
  | succ n ih =>
    intro cur k evs r h
    by_cases hc : cur ∈ rl
    · simp [regionLoop, hc] at h
      obtain ⟨rfl, rfl⟩ := h
      exact ⟨hc, by intro e he; simp at he⟩
    · simp [regionLoop, hc] at h
      match hrec : regionLoop inputs rl (inputs k) (k + 1) n with
      | none => rw [hrec] at h; simp at h
      | some (evs0, r0) =>
        rw [hrec] at h
        simp at h
        obtain ⟨rfl, rfl⟩ := h
        obtain ⟨hr, hs⟩ := ih (inputs k) (k + 1) evs0 r0 hrec
        refine ⟨hr, ?_⟩
        intro e he
        simp at he
        rcases he with he | he
        · exact ⟨inputs k, he⟩
        · exact hs e he

/-- C9: `set_region` issues an app-creation command iff the describe
invocation produced error output; whenever a normal run creates an app,
the region passed to the creation command is an element of the parsed
region listing (the prompt loops until the answer is in the list); and
when describe produces no error output, the run performs nothing beyond
the describe call. -/
theorem set_region_spec (describeErr regionsOut : String) (inputs : Nat → String) (fuel : Nat) :
    (describeErr = "" →
       set_region describeErr regionsOut inputs fuel = SROutcome.done [RgEv.describeApp])
    ∧ (∀ tr, set_region describeErr regionsOut inputs fuel = SROutcome.done tr →
        (((∃ r, RgEv.createApp r ∈ tr) ↔ describeErr ≠ "")
         ∧ ∀ r, RgEv.createApp r ∈ tr →
             ∃ rl, parseRegions regionsOut = some rl ∧ r ∈ rl)) := by
  by_cases hd : describeErr = ""
  · constructor
    · intro _
      simp [set_region, hd]
    · intro tr htr
      simp [set_region, hd] at htr
      constructor
      · constructor
        · rintro ⟨r, hr⟩
          rw [← htr] at hr
          simp at hr
        · intro hne
          exact absurd hd hne
      · intro r hr
        rw [← htr] at hr
        simp at hr
  · constructor
    · intro h
      exact absurd h hd
    · intro tr htr
      rw [set_region, if_pos hd] at htr
      split at htr
      · exact absurd htr (by simp)
      · rename_i rl hp
        split at htr
        · exact absurd htr (by simp)
        · rename_i evs r0 hl
          simp at htr
          obtain ⟨hr0, hprompt⟩ := regionLoop_sound inputs rl fuel "" 0 evs r0 hl
          constructor
          · constructor
            · intro _
              exact hd
            · intro _
              refine ⟨r0, ?_⟩
              rw [← htr]
              simp
          · intro r hr
            refine ⟨rl, hp, ?_⟩
            rw [← htr] at hr
            simp at hr
            rcases hr with hr | hr
            · obtain ⟨q, hq⟩ := hprompt _ hr
              simp at hq
            · exact hr ▸ hr0

/-- Witness for C9 at a concrete failing describe call, a two-region
listing, and a user who answers with the second region. -/
theorem set_region_spec_witness :
    ((∃ r, RgEv.createApp r ∈
        ([RgEv.describeApp, RgEv.listRegions, RgEv.promptRegion "europe-west",
          RgEv.createApp "europe-west"] : List RgEv))
      ↔ ("ERROR: app not found" : String) ≠ "")
    ∧ ∀ r, RgEv.createApp r ∈
        ([RgEv.describeApp, RgEv.listRegions, RgEv.promptRegion "europe-west",
          RgEv.createApp "europe-west"] : List RgEv) →
        ∃ rl, parseRegions "NAME REGION\nus-central1 x\neurope-west y\n" = some rl
              ∧ r ∈ rl :=
  (set_region_spec "ERROR: app not found" "NAME REGION\nus-central1 x\neurope-west y\n"
      (fun _ => "europe-west") 3).2
    [RgEv.describeApp, RgEv.listRegions, RgEv.promptRegion "europe-west",
     RgEv.createApp "europe-west"]
    (by rfl)

/-! ## Deployment (deploy) and URL extraction -/

/-- The literal part of the URL-extraction regular expression in `deploy`:
r"Deployed service \[default\] to \[(.+)\]" up to its capture group. -/
def markerStr : String := "Deployed service [default] to ["

/-- The marker as a character list. -/
def markerL : List Char := markerStr.data

/-- Largest index j with 1 ≤ j whose character is a closing bracket
(`none` when there is no such index). The 1 ≤ j bound reflects that the
greedy `(.+)` must consume at least one character before the final
bracket. `i` is the index of the first character of the list. -/
def lastBracketAux : List Char → Nat → Option Nat
  | [], _ => none
  | c :: rest, i =>
    match lastBracketAux rest (i + 1) with
    | some j => some j
    | none => if c = ']' ∧ 1 ≤ i then some i else none

/-- `lastBracketAux` from index 0. -/
def lastBracket (l : List Char) : Option Nat := lastBracketAux l 0

/-- Attempt the regex tail `(.+)\]` at the position just after the marker:
`.` does not match a newline, so the candidate region is the current line;
the greedy `(.+)` followed by `\]` captures everything up to the LAST
closing bracket on that line (backtracking from the longest extent). -/
def tryMatch (after : List Char) : Option (List Char) :=
  let line := after.takeWhile (fun c => c != '\n')
  match lastBracket line with
  | some j => some (line.take j)
  | none => none

/-- Attempt the whole pattern at a given position: the literal marker must
be a prefix here, then the tail must match. -/
def tryAt (l : List Char) : Option (List Char) :=
  if markerL.isPrefixOf l then tryMatch (l.drop markerL.length) else none

/-- `re.search` for the fixed pattern: try every start position from left
to right and return the first successful capture. -/
def searchGo : List Char → Option (List Char)
  | [] => none
  | c :: rest =>
    match tryAt (c :: rest) with
    | some cap => some cap
    | none => searchGo rest

/-- The capture group extracted from the deploy log, when the pattern
matches somewhere. -/
def deployExtract (log : String) : Option String :=
  (searchGo log.data).map (fun l => String.mk l)

/-- Embedding of `deploy()` on the captured deploy log: on a match it
returns the captured URL (`deploy_url[1]`); on no match `re.search`
returns None and `None[1]` raises the generic TypeError for subscripting
None — there is no explicit URL-not-found error path. -/
def deploy (deploy_log : String) : Except String String :=
  match deployExtract deploy_log with
  | some url => Except.ok url
  | none => Except.error "TypeError: NoneType object is not subscriptable"

/-- A bracket-free list yields no bracket index. -/
theorem lastBracketAux_none (l : List Char) (h : ∀ c ∈ l, c ≠ ']') :
    ∀ i, lastBracketAux l i = none := by
  induction l with
  | nil => intro i; rfl
  | cons c rest ih =>
    intro i
    have hrec := ih (fun x hx => h x (by simp [hx])) (i + 1)
    have hc : c ≠ ']' := h c (by simp)
    simp [lastBracketAux, hrec, hc]

/-- In `url ++ ']' :: pl` with both `url` and `pl` bracket-free, the last
bracket sits exactly at index `i + url.length`. -/
theorem lastBracketAux_last (url pl : List Char)
    (hu : ∀ c ∈ url, c ≠ ']') (hp : ∀ c ∈ pl, c ≠ ']') :
    ∀ i, 1 ≤ i + url.length →
      lastBracketAux (url ++ ']' :: pl) i = some (i + url.length) := by
  induction url with
  | nil =>
    intro i hi
    simp only [List.length_nil, Nat.add_zero] at hi
    have hrec := lastBracketAux_none pl hp (i + 1)
    simp [lastBracketAux, hrec, hi]
  | cons c rest ih =>
    intro i hi
    have hrec := ih (fun x hx => hu x (by simp [hx])) (i + 1) (by omega)
    have hshape : i + 1 + rest.length = i + (rest.length + 1) := by omega
    simp [lastBracketAux, hrec, hshape]

/-- `takeWhile` passes over a block whose elements all satisfy the
predicate. -/
theorem takeWhile_append_all (p : Char → Bool) (l₁ l₂ : List Char)
    (h : ∀ c ∈ l₁, p c = true) :
    (l₁ ++ l₂).takeWhile p = l₁ ++ l₂.takeWhile p := by
  induction l₁ with
  | nil => simp
  | cons c t ih =>
    have hc : p c = true := h c (by simp)
    simp [List.takeWhile_cons, hc, ih (fun x hx => h x (by simp [hx]))]

/-- The regex tail succeeds right after the marker and captures exactly
the url when the url is non-empty, free of newlines and brackets, and the
rest of the line after the closing bracket has no further bracket. -/
theorem tryMatch_spec (url post : List Char)
    (hne : url ≠ [])
    (hurl : ∀ c ∈ url, c ≠ '\n' ∧ c ≠ ']')
    (hpost : ∀ c ∈ post.takeWhile (fun c => c != '\n'), c ≠ ']') :
    tryMatch (url ++ ']' :: post) = some url := by
  have hline : (url ++ ']' :: post).takeWhile (fun c => c != '\n')
      = url ++ ']' :: post.takeWhile (fun c => c != '\n') := by
    rw [takeWhile_append_all _ _ _ (fun c hc => by
      simp only [bne_iff_ne, ne_eq]
      exact (hurl c hc).1)]
    simp [List.takeWhile_cons]
  have hlen : 1 ≤ 0 + url.length := by
    have := List.length_pos.mpr hne
    omega
  have hlast := lastBracketAux_last url (post.takeWhile (fun c => c != '\n'))
    (fun c hc => (hurl c hc).2) hpost 0 hlen
  simp only [Nat.zero_add] at hlast
  simp [tryMatch, hline, lastBracket, hlast, List.take_left]

/-- A list is a Boolean prefix of itself followed by anything. -/
theorem isPrefixOf_append_self (l t : List Char) : l.isPrefixOf (l ++ t) = true := by
  induction l with
  | nil => cases t <;> rfl
  | cons c r ih => simp [List.isPrefixOf, ih]

/-- Attempting the pattern exactly at the marker reduces to attempting its
tail just after the marker. -/
theorem tryAt_marker (tail : List Char) : tryAt (markerL ++ tail) = tryMatch tail := by
  simp [tryAt, isPrefixOf_append_self, List.drop_left]

/-- The left-to-right search skips every position where the marker is not
a prefix. -/
theorem searchGo_skip (pre rest : List Char)
    (h : ∀ i, i < pre.length → markerL.isPrefixOf ((pre ++ rest).drop i) = false) :
    searchGo (pre ++ rest) = searchGo rest := by
  induction pre with
  | nil => rfl
  | cons c t ih =>
    have h0 : markerL.isPrefixOf (c :: (t ++ rest)) = false := by
      have := h 0 (by simp)
      simpa using this
    have hstep : searchGo ((c :: t) ++ rest) = searchGo (t ++ rest) := by
      simp [searchGo, tryAt, h0]
    rw [hstep]
    exact ih (fun i hi => by
      have := h (i + 1) (by simp; omega)
      simpa using this)

/-- The search succeeds at the marker position when the tail matches. -/
theorem searchGo_at_marker (tail cap : List Char) (h : tryMatch tail = some cap) :
    searchGo (markerL ++ tail) = some cap := by
  obtain ⟨c, rest, hm⟩ : ∃ c rest, markerL = c :: rest := by
    cases hml : markerL with
    | nil => exact absurd hml (by decide)
    | cons c r => exact ⟨c, r, rfl⟩
  have hta : tryAt (markerL ++ tail) = some cap := by rw [tryAt_marker]; exact h
  rw [hm] at hta ⊢
  simp only [List.cons_append] at hta ⊢
  simp [searchGo, hta]

/-- C5: for every deploy log containing the pattern
`Deployed service [default] to [url]` — with the url non-empty and free of
newlines and closing brackets, the marker occurring first at that
position, and no further closing bracket on the rest of that line, so
that the shown bracket is the final one the greedy capture extends to —
`deploy` returns exactly that url text. -/
theorem deploy_url_extraction (pre url post : List Char)
    (hne : url ≠ [])
    (hurl : ∀ c ∈ url, c ≠ '\n' ∧ c ≠ ']')
    (hpost : ∀ c ∈ post.takeWhile (fun c => c != '\n'), c ≠ ']')
    (hfirst : ∀ i, i < pre.length →
        markerL.isPrefixOf ((pre ++ (markerL ++ (url ++ ']' :: post))).drop i) = false) :
    deploy (String.mk (pre ++ (markerL ++ (url ++ ']' :: post))))
      = Except.ok (String.mk url) := by
  have hm : tryMatch (url ++ ']' :: post) = some url := tryMatch_spec url post hne hurl hpost
  have hs : searchGo (pre ++ (markerL ++ (url ++ ']' :: post))) = some url := by
    rw [searchGo_skip pre _ hfirst]
    exact searchGo_at_marker _ _ hm
  simp [deploy, deployExtract, hs]

/-- Witness for C5 at the specification's concrete example output. -/
theorem deploy_url_extraction_witness :
    deploy "Deployed service [default] to [https://example.appspot.com]"
      = Except.ok "https://example.appspot.com" := by
  have h := deploy_url_extraction [] ("https://example.appspot.com".data) []
    (by decide) (by decide) (by decide) (fun i hi => absurd hi (by simp))
  exact h

/-- Counterexample to C6 as stated: on a deploy log with no pattern match,
`deploy` does NOT fail with an explicit URL-not-found error (no error
message mentioning `URL not found` is produced). -/
theorem deploy_no_match_counterexample :
    ¬ ∃ msg, deploy "gcloud crashed" = Except.error msg
        ∧ ("URL not found" : String).data <:+: msg.data := by
  rintro ⟨msg, hmsg, hsub⟩
  rw [show deploy "gcloud crashed"
      = Except.error "TypeError: NoneType object is not subscriptable" from rfl] at hmsg
  simp at hmsg
  rw [← hmsg] at hsub
  exact absurd hsub (by decide)

/-- C6 (amended): for every deployment output in which the pattern does
not occur, `deploy` fails — but with the generic TypeError raised by
subscripting the failed (None) match result, whose message does not
mention URL not found, rather than with an explicit URL-not-found
error. -/
theorem deploy_no_match_generic_failure (log : String)
    (h : searchGo log.data = none) :
    deploy log = Except.error "TypeError: NoneType object is not subscriptable"
    ∧ ¬ ("URL not found" : String).data <:+:
        ("TypeError: NoneType object is not subscriptable" : String).data := by
  constructor
  · simp [deploy, deployExtract, h]
  · decide

/-- Witness for the amended C6 at a concrete matchless deploy log. -/
theorem deploy_no_match_generic_failure_witness :
    deploy "gcloud crashed" = Except.error "TypeError: NoneType object is not subscriptable"
    ∧ ¬ ("URL not found" : String).data <:+:
        ("TypeError: NoneType object is not subscriptable" : String).data :=
  deploy_no_match_generic_failure "gcloud crashed" rfl

/-! ## Orchestration entry point (main) -/

/-- Top-level events of one run of `main`, in order. -/
inductive Ev where
  | promptProjectId (resp : String)
  | promptPartnerKey (resp : String)
  | setProject (pid : String)
  | setRegionStep
  | enableApisStep
  | getServiceKeyStep (pid : String)
  | initializeFirebaseStep (pid : String)
  | createConfigStep (pid key : String)
  | deployStep
  | printSummary (text : String)
deriving DecidableEq

/-- The Firebase rules console URL templated from the project id inside
the final summary f-string. -/
def rulesConsoleUrl (project_id : String) : String :=
  "https://console.firebase.google.com/project/" ++ project_id ++ "/database/"
    ++ project_id ++ "/rules"

/-- The final summary f-string printed by `main`, with the deployed URL
and the project id substituted. -/
def summaryText (deployed_url project_id : String) : String :=
  "\n    Link to Administration console: " ++ deployed_url
    ++ "/admin.\n    Link to Firebase Rules: " ++ rulesConsoleUrl project_id
    ++ "\n    Please follow the instructions in the README of the parent directory.\n    "

/-- A prompt loop `while not x: x = input(..)`: consumes answers until the
first non-empty one, recording one prompt event per answer; `none` when
the answer stream is exhausted while still empty. -/
def promptUntilNonEmpty (mk : String → Ev) : List String → Option (String × List String × List Ev)
  | [] => none
  | r :: rest =>
    if r = "" then
      match promptUntilNonEmpty mk rest with
      | none => none
      | some (v, rem, evs) => some (v, rem, mk r :: evs)
    else some (r, rest, [mk r])

/-- Embedding of `main()`: prompt for the project id until non-empty, then
for the partner key until non-empty, then run the pipeline in source
order — set active project, set_region, enable_apis, get_service_key,
initialize_firebase, create_config, deploy — and print the summary. The
deployed URL returned by the deploy step is `deployedUrl`. (Named
`main_entry` because Lean reserves the name `main` for executables.) -/
def main_entry (responses : List String) (deployedUrl : String) : Option (List Ev) :=
  match promptUntilNonEmpty Ev.promptProjectId responses with
  | none => none
  | some (pid, rest, evs1) =>
    match promptUntilNonEmpty Ev.promptPartnerKey rest with
    | none => none
    | some (key, _, evs2) =>
      some (evs1 ++ (evs2
        ++ [Ev.setProject pid, Ev.setRegionStep, Ev.enableApisStep,
            Ev.getServiceKeyStep pid, Ev.initializeFirebaseStep pid,
            Ev.createConfigStep pid key, Ev.deployStep,
            Ev.printSummary (summaryText deployedUrl pid)]))

/-- `sub` occurs as a contiguous substring of `s`. -/
def strContains (s sub : String) : Prop := sub.data <:+: s.data

/-- Appending strings appends their character data. -/
theorem string_data_append (s t : String) : (s ++ t).data = s.data ++ t.data := by
  cases s
  cases t
  rfl

/-- A decomposition of the character data witnesses a substring. -/
theorem strContains_of_split (s sub a b : String)
    (h : s.data = a.data ++ sub.data ++ b.data) : strContains s sub :=
  ⟨a.data, b.data, h.symm⟩

/-- `a` happens at some position strictly before some position of `b` in
the trace. -/
def occursBeforeB (tr : List Ev) (a b : Ev) : Bool :=
  (List.range tr.length).any (fun j =>
    decide (tr.get? j = some b)
    && (List.range j).any (fun i => decide (tr.get? i = some a)))

/-- A prompt loop over some empty answers followed by a non-empty one
returns that answer, the remaining stream, and one prompt event per
consumed answer. -/
theorem promptUntilNonEmpty_spec (mk : String → Ev) (empties : List String)
    (v : String) (rest : List String)
    (he : ∀ e ∈ empties, e = "") (hv : v ≠ "") :
    promptUntilNonEmpty mk (empties ++ v :: rest)
      = some (v, rest, empties.map mk ++ [mk v]) := by
  induction empties with
  | nil => simp [promptUntilNonEmpty, hv]
  | cons c t ih =>
    have hc : c = "" := he c (by simp)
    have iht := ih (fun x hx => he x (by simp [hx]))
    simp [promptUntilNonEmpty, hc, iht]

/-- Counterexample to C7 as stated: in a concrete run the entry point does
NOT execute API enablement before region selection — the source calls
`set_region()` before `enable_apis()`, so region selection strictly
precedes API enablement in the trace. -/
theorem main_entry_order_counterexample :
    (main_entry ["proj-1", "key-1"] "https://x.appspot.com").isSome = true
    ∧ occursBeforeB ((main_entry ["proj-1", "key-1"] "https://x.appspot.com").getD [])
        Ev.enableApisStep Ev.setRegionStep = false
    ∧ occursBeforeB ((main_entry ["proj-1", "key-1"] "https://x.appspot.com").getD [])
        Ev.setRegionStep Ev.enableApisStep = true := by
  refine ⟨rfl, by decide, by decide⟩

/-- C7 (amended): the entry point prompts repeatedly until the project id
and then the partner key are non-empty, then executes the provisioning
steps strictly in the source sequence — set active project, region
selection, THEN API enablement (the source order swaps the first two
steps of the claimed 4.1-then-4.2 order), then service-account and key
provisioning, database initialization, configuration emission and
deployment — and finally prints a summary containing the deployed URL and
the rules-console URL templated from the project id. -/
theorem main_entry_trace (ea eb rest : List String) (pid key url : String)
    (hea : ∀ e ∈ ea, e = "") (hpid : pid ≠ "")
    (heb : ∀ e ∈ eb, e = "") (hkey : key ≠ "") :
    main_entry (ea ++ pid :: (eb ++ key :: rest)) url
      = some ((ea.map Ev.promptProjectId ++ [Ev.promptProjectId pid])
          ++ ((eb.map Ev.promptPartnerKey ++ [Ev.promptPartnerKey key])
          ++ [Ev.setProject pid, Ev.setRegionStep, Ev.enableApisStep,
              Ev.getServiceKeyStep pid, Ev.initializeFirebaseStep pid,
              Ev.createConfigStep pid key, Ev.deployStep,
              Ev.printSummary (summaryText url pid)]))
    ∧ strContains (summaryText url pid) url
    ∧ strContains (summaryText url pid) (rulesConsoleUrl pid) := by
  refine ⟨?_, ?_, ?_⟩
  · simp only [main_entry,
      promptUntilNonEmpty_spec Ev.promptProjectId ea pid (eb ++ key :: rest) hea hpid,
      promptUntilNonEmpty_spec Ev.promptPartnerKey eb key rest heb hkey]
  · exact strContains_of_split _ url "\n    Link to Administration console: "
      ("/admin.\n    Link to Firebase Rules: " ++ rulesConsoleUrl pid
        ++ "\n    Please follow the instructions in the README of the parent directory.\n    ")
      (by simp [summaryText, string_data_append, List.append_assoc])
  · exact strContains_of_split _ (rulesConsoleUrl pid)
      ("\n    Link to Administration console: " ++ url ++ "/admin.\n    Link to Firebase Rules: ")
      "\n    Please follow the instructions in the README of the parent directory.\n    "
      (by simp [summaryText, string_data_append, List.append_assoc])

/-- Witness for the amended C7: one empty project-id answer, then valid
answers. -/
theorem main_entry_trace_witness :
    main_entry ([""] ++ "p" :: (([] : List String) ++ "k" :: ([] : List String)))
        "https://app.example.com"
      = some (([""].map Ev.promptProjectId ++ [Ev.promptProjectId "p"])
          ++ ((([] : List String).map Ev.promptPartnerKey ++ [Ev.promptPartnerKey "k"])
          ++ [Ev.setProject "p", Ev.setRegionStep, Ev.enableApisStep,
              Ev.getServiceKeyStep "p", Ev.initializeFirebaseStep "p",
              Ev.createConfigStep "p" "k", Ev.deployStep,
              Ev.printSummary (summaryText "https://app.example.com" "p")]))
    ∧ strContains (summaryText "https://app.example.com" "p") "https://app.example.com"
    ∧ strContains (summaryText "https://app.example.com" "p") (rulesConsoleUrl "p") :=
  main_entry_trace [""] ([] : List String) ([] : List String) "p" "k" "https://app.example.com"
    (by decide) (by decide) (by decide) (by decide)
